import Mathlib

/-
Shallow embedding of the configmap-rs-operator reconciliation core.

Source files embedded:
  internal/controller/replicaset_controller.go
    Reconcile, shouldProcessNamespace, extractConfigMapVolumes,
    processConfigMap, isOwnerReferencePresent, SetupWithManager (event filter)
  internal/config/config.go
    FinalizeConfig

External collaborators (the Kubernetes client, the Go regexp engine and
controller-runtime's SetOwnerReference helper) are modelled abstractly:
fetches by a `FetchResult`-valued store, regexp matching by an oracle
`Matcher` that may fail to compile a pattern, and the owner-reference
append per the documented contract.
-/

namespace ConfigMapRsOperator

/-- An ownership-reference record on a ConfigMap, as in
`metav1.OwnerReference`: (kind, name, uid) is what
`isOwnerReferencePresent` compares. -/
structure OwnerReference where
  apiVersion : String
  kind : String
  name : String
  uid : String
  deriving DecidableEq, Repr

/-- A ConfigMap, reduced to the only field the core mutates:
its ordered list of owner references. -/
structure ConfigMap where
  ownerReferences : List OwnerReference
  deriving DecidableEq, Repr

/-- A container's volume mount (`corev1.VolumeMount`), reduced to its name. -/
structure VolumeMount where
  name : String
  deriving DecidableEq, Repr

/-- A container (`corev1.Container`), reduced to its volume mounts. -/
structure Container where
  volumeMounts : List VolumeMount
  deriving DecidableEq, Repr

/-- A pod volume (`corev1.Volume`): its name, and the referenced ConfigMap
name when the volume has a ConfigMap source (`volume.ConfigMap != nil`). -/
structure Volume where
  name : String
  configMap : Option String
  deriving DecidableEq, Repr

/-- The pod template spec fields read by `extractConfigMapVolumes`:
`rs.Spec.Template.Spec.{Containers, InitContainers, Volumes}`. -/
structure PodSpec where
  containers : List Container
  initContainers : List Container
  volumes : List Volume
  deriving DecidableEq, Repr

/-- A ReplicaSet, reduced to the fields the controller reads. Creation
timestamps are modelled as integers; Go `t.Before(u)` is `t < u` and
`t.After(u)` is `u < t`. -/
structure ReplicaSet where
  name : String
  uid : String
  creationTimestamp : Int
  template : PodSpec
  deriving DecidableEq, Repr

/-- Outcome of a `client.Get` call: the object, a not-found error, or any
other (transient) failure. -/
inductive FetchResult (α : Type) where
  | found : α → FetchResult α
  | notFound : FetchResult α
  | fetchFailure : FetchResult α
  deriving DecidableEq, Repr

/-- The Go regexp engine, abstracted: `m pattern s` is `none` when the
pattern fails to compile (`regexp.MatchString` returns an error) and
`some b` when it compiles and reports match result `b`. -/
abbrev Matcher := String → String → Option Bool

/-- Operator configuration (`config.OperatorConfig`), the fields read by
the controller and produced by `FinalizeConfig`. -/
structure OperatorConfig where
  namespaceRegex : List String
  dryRun : Bool
  debug : Bool
  trace : Bool
  deriving DecidableEq, Repr

/-- Everything a `ReplicaSetReconciler` value carries that the core logic
reads: the regexp engine, the configuration, the process start time, and
an oracle saying whether the `Update` (replace) call on a given ConfigMap
succeeds. -/
structure ReconcilerEnv where
  matcher : Matcher
  config : OperatorConfig
  startTime : Int
  updateOk : String → Bool

/-- The errors `Reconcile` can return: a non-not-found failure fetching
the ReplicaSet, a non-not-found failure fetching a ConfigMap, or a
failure persisting a ConfigMap. -/
inductive ReconcileError where
  | getReplicaSetFailed : ReconcileError
  | getConfigMapFailed : String → ReconcileError
  | updateConfigMapFailed : String → ReconcileError
  deriving DecidableEq, Repr

/-- The ConfigMaps of the workload's namespace, as a fetch oracle keyed by
ConfigMap name. -/
abbrev CMStore := String → FetchResult ConfigMap

/-- `shouldProcessNamespace`'s loop body: scan the patterns in order; a
pattern whose compilation fails is skipped; return true on the first
match, false when the list is exhausted. -/
def anyPatternMatches (m : Matcher) (ns : String) : List String → Bool
  | [] => false
  | p :: rest =>
    match m p ns with
    | none => anyPatternMatches m ns rest
    | some matched => if matched then true else anyPatternMatches m ns rest

/-- `shouldProcessNamespace` from replicaset_controller.go: true when the
configured pattern list is empty, otherwise true iff some pattern
matches the namespace. -/
def shouldProcessNamespace (m : Matcher) (patterns : List String) (ns : String) : Bool :=
  if patterns.isEmpty then true
  else anyPatternMatches m ns patterns

/-- `isOwnerReferencePresent` from replicaset_controller.go: some existing
owner reference has kind "ReplicaSet" and the workload's name and uid. -/
def isOwnerReferencePresent (cm : ConfigMap) (rs : ReplicaSet) : Bool :=
  cm.ownerReferences.any fun o =>
    o.kind == "ReplicaSet" && o.name == rs.name && o.uid == rs.uid

/-- Modelled from the spec: `controllerutil.SetOwnerReference` (external
library, not in this repository) appends a new ownership-reference
record with the workload's kind, name and unique id, configured as
non-controller and non-blocking. -/
def setOwnerReference (rs : ReplicaSet) (cm : ConfigMap) : ConfigMap :=
  { ownerReferences := cm.ownerReferences ++
      [{ apiVersion := "apps/v1", kind := "ReplicaSet", name := rs.name, uid := rs.uid }] }

/-- `processConfigMap` from replicaset_controller.go: fetch the ConfigMap
(not-found is benign, other failures propagate); skip when the owner
reference is already present; skip the write in dry-run mode; otherwise
append the owner reference and persist, propagating a persist failure.
On success the returned store differs only at the processed name. -/
def processConfigMap (env : ReconcilerEnv) (rs : ReplicaSet) (name : String)
    (store : CMStore) : Except ReconcileError CMStore :=
  match store name with
  | .notFound => .ok store
  | .fetchFailure => .error (.getConfigMapFailed name)
  | .found cm =>
    if isOwnerReferencePresent cm rs then .ok store
    else if env.config.dryRun then .ok store
    else if env.updateOk name then
      .ok (fun n => if n = name then .found (setOwnerReference rs cm) else store n)
    else .error (.updateConfigMapFailed name)

/-- The per-ConfigMap loop of `Reconcile`: process the extracted names in
order and abort with the first error, keeping the updates already made. -/
def processConfigMaps (env : ReconcilerEnv) (rs : ReplicaSet) :
    List String → CMStore → CMStore × Option ReconcileError
  | [], store => (store, none)
  | name :: rest, store =>
    match processConfigMap env rs name store with
    | .ok store₁ => processConfigMaps env rs rest store₁
    | .error e => (store, some e)

/-- Innermost loop of `extractConfigMapVolumes`: for one volume mount and
one volume, if the names match and the volume has a ConfigMap source
whose name is not yet in the seen set, append the name to the result
(first component) and record it as seen (second component). -/
def volStep (vmName : String) (st : List String × List String) (v : Volume) :
    List String × List String :=
  if v.name == vmName then
    match v.configMap with
    | some cmName =>
      if cmName ∈ st.2 then st else (st.1 ++ [cmName], cmName :: st.2)
    | none => st
  else st

/-- Loop over the volume list for one volume mount. -/
def mountStep (volumes : List Volume) (st : List String × List String)
    (vm : VolumeMount) : List String × List String :=
  volumes.foldl (volStep vm.name) st

/-- Loop over one container's volume mounts. -/
def containerStep (volumes : List Volume) (st : List String × List String)
    (c : Container) : List String × List String :=
  c.volumeMounts.foldl (mountStep volumes) st

/-- `extractConfigMapVolumes` from replicaset_controller.go: scan primary
containers, then init containers; per container its volume mounts in
order; per mount the volume list; collect ConfigMap names of matching
ConfigMap-backed volumes, deduplicated by a seen set. -/
def extractConfigMapVolumes (rs : ReplicaSet) : List String :=
  let vols := rs.template.volumes
  let st₁ := rs.template.containers.foldl (containerStep vols) ([], [])
  let st₂ := rs.template.initContainers.foldl (containerStep vols) st₁
  st₂.1

/-- `Reconcile` from replicaset_controller.go, over the ConfigMap store of
the request's namespace: namespace filter, ReplicaSet fetch (not-found
benign, other failures propagate), startup watermark guard
(`creationTime.Before(r.StartTime)` skips), reference extraction with
empty-result early return, then the per-ConfigMap loop. -/
def reconcile (env : ReconcilerEnv) (rsFetch : FetchResult ReplicaSet)
    (store : CMStore) (ns : String) : CMStore × Option ReconcileError :=
  if !shouldProcessNamespace env.matcher env.config.namespaceRegex ns then
    (store, none)
  else
    match rsFetch with
    | .notFound => (store, none)
    | .fetchFailure => (store, some .getReplicaSetFailed)
    | .found rs =>
      if rs.creationTimestamp < env.startTime then (store, none)
      else
        let names := extractConfigMapVolumes rs
        if names.isEmpty then (store, none)
        else processConfigMaps env rs names store

/-- Payload of a watch event: either a ReplicaSet or some other object
(the failed type assertion case in the create filter). -/
inductive ClusterObject where
  | replicaSet : ReplicaSet → ClusterObject
  | other : ClusterObject
  deriving Repr

/-- The four controller-runtime event kinds fed to the event filter. -/
inductive WatchEvent where
  | createEvent : ClusterObject → WatchEvent
  | updateEvent : ClusterObject → ClusterObject → WatchEvent
  | deleteEvent : ClusterObject → WatchEvent
  | genericEvent : ClusterObject → WatchEvent
  deriving Repr

/-- The event filter installed by `SetupWithManager`: create events pass
iff the payload is a ReplicaSet whose creation time is strictly after
the start time (`CreationTimestamp.Time.After(r.StartTime)`); update,
delete and generic events never pass. -/
def replicaSetPredicate (startTime : Int) : WatchEvent → Bool
  | .createEvent obj =>
    match obj with
    | .replicaSet rs => decide (startTime < rs.creationTimestamp)
    | .other => false
  | .updateEvent _ _ => false
  | .deleteEvent _ => false
  | .genericEvent _ => false

/-- `strings.Split` on commas followed by `strings.TrimSpace` on each
entry, as `FinalizeConfig` parses a namespace-regex string. -/
def splitTrim (s : String) : List String :=
  (s.splitOn ",").map (fun p => p.trim)

/-- `FinalizeConfig` from internal/config/config.go, as a function of the
parsed flag values and the process environment (`getEnv` is `os.Getenv`;
an unset variable reads as the empty string): the NAMESPACE_REGEX
variable, when non-empty, replaces the flag-derived pattern list;
DRY_RUN, DEBUG and TRACE equal to "true" force the corresponding fields
to true, TRACE also forcing debug. -/
def finalizeConfig (flagNamespaceRegex : String)
    (flagDryRun flagDebug flagTrace : Bool)
    (getEnv : String → String) : OperatorConfig :=
  let nr₀ : List String :=
    if flagNamespaceRegex ≠ "" then splitTrim flagNamespaceRegex else []
  let nr : List String :=
    if getEnv "NAMESPACE_REGEX" ≠ "" then splitTrim (getEnv "NAMESPACE_REGEX") else nr₀
  let dryRun := if getEnv "DRY_RUN" == "true" then true else flagDryRun
  let debug₀ := if getEnv "DEBUG" == "true" then true else flagDebug
  let trace := if getEnv "TRACE" == "true" then true else flagTrace
  let debug := if getEnv "TRACE" == "true" then true else debug₀
  { namespaceRegex := nr, dryRun := dryRun, debug := debug, trace := trace }

/-- One step of "append if not yet seen": the common core of the
extractor's seen-set bookkeeping, acting on (result, seen). -/
def dedupStep (st : List String × List String) (n : String) :
    List String × List String :=
  if n ∈ st.2 then st else (st.1 ++ [n], n :: st.2)

/-- The ConfigMap names contributed by one volume for a mount of the
given name: the volume's ConfigMap reference when the names match and
the volume is ConfigMap-backed, nothing otherwise. -/
def volCMNames (vmName : String) (v : Volume) : List String :=
  if v.name == vmName then
    match v.configMap with
    | some cmName => [cmName]
    | none => []
  else []

/-- The ConfigMap names contributed by one volume mount, scanning the
volume list in order. -/
def mountCMNames (volumes : List Volume) (vm : VolumeMount) : List String :=
  volumes.flatMap (volCMNames vm.name)

/-- The ConfigMap names contributed by one container, scanning its
volume mounts in order. -/
def containerCMNames (volumes : List Volume) (c : Container) : List String :=
  c.volumeMounts.flatMap (mountCMNames volumes)

/-- Modelled from the spec: the extractor's discovery order — primary
containers first, then init containers, each container's mounts in
order, each mount scanning the volume list in order — before
deduplication. -/
def discoveryOrder (rs : ReplicaSet) : List String :=
  (rs.template.containers ++ rs.template.initContainers).flatMap
    (containerCMNames rs.template.volumes)

/-- Modelled from the spec: keep the first occurrence of each name, in
order of first discovery. -/
def firstSeenDedup : List String → List String
  | [] => []
  | n :: rest => n :: firstSeenDedup (rest.filter (fun x => x ≠ n))
termination_by l => l.length
decreasing_by
  simp_wf
  exact Nat.lt_succ_of_le (List.length_filter_le _ _)

/-- Invariant of the extractor's accumulator: the emitted list has no
duplicates and the seen set holds exactly the emitted names. -/
def DedupInv (st : List String × List String) : Prop :=
  st.1.Nodup ∧ ∀ x, x ∈ st.2 ↔ x ∈ st.1

/-- The conditions under which `processConfigMap` leaves the store
untouched and reports success: the ConfigMap is absent, or already
carries the owner reference, or dry-run is on. -/
def SkipAt (env : ReconcilerEnv) (rs : ReplicaSet) (v : FetchResult ConfigMap) : Prop :=
  v = .notFound ∨
    ∃ cm, v = .found cm ∧
      (isOwnerReferencePresent cm rs = true ∨ env.config.dryRun = true)

/-- A pod template with one primary container mounting one
ConfigMap-backed volume, as in the spec's end-to-end scenario. -/
def sampleTemplate : PodSpec :=
  { containers := [{ volumeMounts := [{ name := "config-vol" }] }],
    initContainers := [],
    volumes := [{ name := "config-vol", configMap := some "app-config" }] }

/-- A ReplicaSet created exactly at the operator's start time (5). -/
def rsAtStart : ReplicaSet :=
  { name := "app-rs", uid := "u1", creationTimestamp := 5, template := sampleTemplate }

/-- A ReplicaSet created strictly after the operator's start time. -/
def rsNew : ReplicaSet :=
  { name := "app-rs", uid := "u1", creationTimestamp := 6, template := sampleTemplate }

/-- A concrete instantiation of the abstract regexp oracle: the empty
pattern compiles and matches every string, the pattern "bad[" fails to
compile, and any other pattern matches exactly itself. -/
def sampleMatcher : Matcher := fun p s =>
  if p = "" then some true
  else if p = "bad[" then none
  else some (p == s)

/-- Default configuration: no namespace patterns, all flags off. -/
def baseConfig : OperatorConfig :=
  { namespaceRegex := [], dryRun := false, debug := false, trace := false }

/-- Reconciler fixture: default configuration, start time 5, every
persist succeeding. -/
def envBase : ReconcilerEnv :=
  { matcher := sampleMatcher, config := baseConfig, startTime := 5,
    updateOk := fun _ => true }

/-- Reconciler fixture restricted to the namespace "kube-system". -/
def envKube : ReconcilerEnv :=
  { envBase with config := { baseConfig with namespaceRegex := ["kube-system"] } }

/-- Reconciler fixture with dry-run enabled. -/
def envDry : ReconcilerEnv :=
  { envBase with config := { baseConfig with dryRun := true } }

/-- ConfigMap store fixture: "app-config" exists with no owner
references; everything else is absent. -/
def storeBase : CMStore := fun n =>
  if n = "app-config" then .found { ownerReferences := [] } else .notFound

/-- Reconciler fixture in which every persist (replace) call fails. -/
def envNoUpdate : ReconcilerEnv := { envBase with updateOk := fun _ => false }

/-- ConfigMap store fixture with one healthy ConfigMap, one whose fetch
fails transiently, and everything else absent. -/
def storeMulti : CMStore := fun n =>
  if n = "app-config" then .found { ownerReferences := [] }
  else if n = "broken" then .fetchFailure
  else .notFound

/-- Process environment fixture: NAMESPACE_REGEX and TRACE are set,
everything else is unset (reads as the empty string). -/
def getEnvSample : String → String := fun k =>
  if k = "NAMESPACE_REGEX" then "^kube-.*, default"
  else if k = "TRACE" then "true"
  else ""

lemma anyPatternMatches_eq_true (m : Matcher) (ns : String) (l : List String) :
    anyPatternMatches m ns l = true ↔ ∃ p ∈ l, m p ns = some true := by
  induction l with
  | nil => simp [anyPatternMatches]
  | cons p rest ih =>
    simp only [anyPatternMatches]
    cases h : m p ns with
    | none =>
      rw [ih]
      constructor
      · rintro ⟨q, hq, hmq⟩
        exact ⟨q, List.mem_cons_of_mem _ hq, hmq⟩
      · rintro ⟨q, hq, hmq⟩
        rcases List.mem_cons.mp hq with rfl | hq'
        · rw [h] at hmq; cases hmq
        · exact ⟨q, hq', hmq⟩
    | some b =>
      cases b with
      | false =>
        show anyPatternMatches m ns rest = true ↔ ∃ q ∈ p :: rest, m q ns = some true
        rw [ih]
        constructor
        · rintro ⟨q, hq, hmq⟩
          exact ⟨q, List.mem_cons_of_mem _ hq, hmq⟩
        · rintro ⟨q, hq, hmq⟩
          rcases List.mem_cons.mp hq with rfl | hq'
          · rw [h] at hmq; cases hmq
          · exact ⟨q, hq', hmq⟩
      | true =>
        show true = true ↔ ∃ q ∈ p :: rest, m q ns = some true
        constructor
        · intro _
          exact ⟨p, List.mem_cons_self p rest, h⟩
        · intro _
          rfl

lemma shouldProcessNamespace_cons (m : Matcher) (p : String) (rest : List String)
    (ns : String) :
    shouldProcessNamespace m (p :: rest) ns = anyPatternMatches m ns (p :: rest) := by
  rfl

/-- C6: the Namespace Filter returns true on an empty pattern list;
otherwise it returns true iff some pattern matches the namespace under
the (abstracted) regexp engine; and whenever it returns false, Reconcile
returns with no error and leaves the ConfigMap store untouched. -/
theorem namespaceFilter_spec (m : Matcher) (patterns : List String) (ns : String)
    (env : ReconcilerEnv) (rsFetch : FetchResult ReplicaSet) (store : CMStore) :
    shouldProcessNamespace m [] ns = true ∧
    (shouldProcessNamespace m patterns ns = true ↔
      patterns = [] ∨ ∃ p ∈ patterns, m p ns = some true) ∧
    (shouldProcessNamespace env.matcher env.config.namespaceRegex ns = false →
      reconcile env rsFetch store ns = (store, none)) := by
  refine ⟨rfl, ?_, ?_⟩
  · cases patterns with
    | nil => simp [shouldProcessNamespace]
    | cons p rest =>
      rw [shouldProcessNamespace_cons, anyPatternMatches_eq_true]
      simp
  · intro h
    unfold reconcile
    rw [h]
    rfl

/-- C6 witness: with the sample matcher and the pattern list
["kube-system"], namespace "default" is filtered out and Reconcile is a
no-op without error. -/
theorem namespaceFilter_spec_witness :
    shouldProcessNamespace envKube.matcher envKube.config.namespaceRegex "default" = false ∧
    reconcile envKube (.found rsNew) storeBase "default" = (storeBase, none) :=
  ⟨by decide,
   (namespaceFilter_spec sampleMatcher ["kube-system"] "default" envKube
      (.found rsNew) storeBase).2.2 (by decide)⟩

/-- C7: a pattern whose compilation fails is skipped wherever it occurs:
the filter's verdict on a list containing a malformed pattern is exactly
the existence of a matching pattern among the remaining ones, and the
filter still returns an ordinary boolean (no error surfaces). -/
theorem malformedPattern_skipped (m : Matcher) (xs ys : List String) (p ns : String)
    (h : m p ns = none) :
    shouldProcessNamespace m (xs ++ p :: ys) ns = true ↔
      ∃ q ∈ xs ++ ys, m q ns = some true := by
  have key : shouldProcessNamespace m (xs ++ p :: ys) ns =
      anyPatternMatches m ns (xs ++ p :: ys) := by
    cases xs with
    | nil => rfl
    | cons a as => rfl
  rw [key, anyPatternMatches_eq_true]
  constructor
  · rintro ⟨q, hq, hmq⟩
    rcases List.mem_append.mp hq with hq' | hq'
    · exact ⟨q, List.mem_append.mpr (Or.inl hq'), hmq⟩
    · rcases List.mem_cons.mp hq' with rfl | hq''
      · rw [h] at hmq; cases hmq
      · exact ⟨q, List.mem_append.mpr (Or.inr hq''), hmq⟩
  · rintro ⟨q, hq, hmq⟩
    rcases List.mem_append.mp hq with hq' | hq'
    · exact ⟨q, List.mem_append.mpr (Or.inl hq'), hmq⟩
    · exact ⟨q, List.mem_append.mpr (Or.inr (List.mem_cons_of_mem _ hq')), hmq⟩

/-- C7 witness: the malformed pattern "bad[" ahead of "default" is
skipped; the remaining pattern still matches namespace "default". -/
theorem malformedPattern_skipped_witness :
    sampleMatcher "bad[" "default" = none ∧
    (shouldProcessNamespace sampleMatcher ([] ++ "bad[" :: ["default"]) "default" = true ↔
      ∃ q ∈ ([] : List String) ++ ["default"], sampleMatcher q "default" = some true) :=
  ⟨by decide,
   malformedPattern_skipped sampleMatcher [] ["default"] "bad[" "default" (by decide)⟩

/-- C10: when the pattern list contains the empty string and the regexp
engine (as Go's does) lets the empty pattern match every string, the
Namespace Filter returns true for every namespace. -/
theorem emptyPattern_disablesFiltering (m : Matcher) (patterns : List String)
    (ns : String) (hmem : "" ∈ patterns) (hm : m "" ns = some true) :
    shouldProcessNamespace m patterns ns = true := by
  cases patterns with
  | nil => cases hmem
  | cons p rest =>
    rw [shouldProcessNamespace_cons, anyPatternMatches_eq_true]
    exact ⟨"", hmem, hm⟩

/-- C10 witness: the list ["^kube-.*", "", ""], as produced by a doubled
trailing comma in the namespace-regex input, contains the empty pattern,
and the filter then admits an arbitrary namespace. -/
theorem emptyPattern_disablesFiltering_witness :
    ("" ∈ ["^kube-.*", "", ""]) ∧
    sampleMatcher "" "production" = some true ∧
    shouldProcessNamespace sampleMatcher ["^kube-.*", "", ""] "production" = true :=
  ⟨by decide, by decide,
   emptyPattern_disablesFiltering sampleMatcher ["^kube-.*", "", ""] "production"
     (by decide) (by decide)⟩

/-- C8: the event filter admits an event iff it is a create event whose
payload is a ReplicaSet created strictly after the start time; updates,
deletes, generics, and non-ReplicaSet payloads are all rejected. -/
theorem eventAdmission_spec (s : Int) (e : WatchEvent) :
    replicaSetPredicate s e = true ↔
      ∃ rs, e = .createEvent (.replicaSet rs) ∧ s < rs.creationTimestamp := by
  cases e with
  | createEvent obj =>
    cases obj with
    | replicaSet rs => simp [replicaSetPredicate]
    | other => simp [replicaSetPredicate]
  | updateEvent a b => simp [replicaSetPredicate]
  | deleteEvent a => simp [replicaSetPredicate]
  | genericEvent a => simp [replicaSetPredicate]

lemma processConfigMaps_cons (env : ReconcilerEnv) (rs : ReplicaSet) (n : String)
    (rest : List String) (store : CMStore) :
    processConfigMaps env rs (n :: rest) store =
      match processConfigMap env rs n store with
      | .ok store₁ => processConfigMaps env rs rest store₁
      | .error e => (store, some e) := rfl

lemma processConfigMap_notFound (env : ReconcilerEnv) (rs : ReplicaSet)
    (n : String) (store : CMStore) (hv : store n = .notFound) :
    processConfigMap env rs n store = .ok store := by
  unfold processConfigMap
  rw [hv]

lemma processConfigMap_fetchFailure (env : ReconcilerEnv) (rs : ReplicaSet)
    (n : String) (store : CMStore) (hv : store n = .fetchFailure) :
    processConfigMap env rs n store = .error (.getConfigMapFailed n) := by
  unfold processConfigMap
  rw [hv]

lemma processConfigMap_found (env : ReconcilerEnv) (rs : ReplicaSet)
    (n : String) (store : CMStore) (cm : ConfigMap) (hv : store n = .found cm) :
    processConfigMap env rs n store =
      (if isOwnerReferencePresent cm rs then .ok store
       else if env.config.dryRun then .ok store
       else if env.updateOk n then
         .ok (fun k => if k = n then .found (setOwnerReference rs cm) else store k)
       else .error (.updateConfigMapFailed n)) := by
  unfold processConfigMap
  rw [hv]

lemma reconcile_notProcessed (env : ReconcilerEnv) (rsFetch : FetchResult ReplicaSet)
    (store : CMStore) (ns : String)
    (hns : shouldProcessNamespace env.matcher env.config.namespaceRegex ns = false) :
    reconcile env rsFetch store ns = (store, none) := by
  unfold reconcile
  rw [hns]
  rfl

lemma reconcile_rsNotFound (env : ReconcilerEnv) (store : CMStore) (ns : String) :
    reconcile env .notFound store ns = (store, none) := by
  unfold reconcile
  cases hns : shouldProcessNamespace env.matcher env.config.namespaceRegex ns <;> rfl

lemma reconcile_rsFetchFailure (env : ReconcilerEnv) (store : CMStore) (ns : String)
    (hns : shouldProcessNamespace env.matcher env.config.namespaceRegex ns = true) :
    reconcile env .fetchFailure store ns = (store, some .getReplicaSetFailed) := by
  unfold reconcile
  rw [hns]
  rfl

lemma reconcile_found (env : ReconcilerEnv) (store : CMStore) (ns : String)
    (rs : ReplicaSet)
    (hns : shouldProcessNamespace env.matcher env.config.namespaceRegex ns = true) :
    reconcile env (.found rs) store ns =
      if rs.creationTimestamp < env.startTime then (store, none)
      else processConfigMaps env rs (extractConfigMapVolumes rs) store := by
  unfold reconcile
  rw [hns]
  show (if rs.creationTimestamp < env.startTime then (store, none)
        else
          let names := extractConfigMapVolumes rs
          if names.isEmpty then (store, none)
          else processConfigMaps env rs names store) = _
  by_cases hlt : rs.creationTimestamp < env.startTime
  · rw [if_pos hlt, if_pos hlt]
  · rw [if_neg hlt, if_neg hlt]
    show (if (extractConfigMapVolumes rs).isEmpty = true then (store, none)
          else processConfigMaps env rs (extractConfigMapVolumes rs) store) = _
    by_cases hemp : (extractConfigMapVolumes rs).isEmpty = true
    · rw [if_pos hemp]
      have hnil : extractConfigMapVolumes rs = [] := by
        cases hext : extractConfigMapVolumes rs with
        | nil => rfl
        | cons a l => rw [hext] at hemp; cases hemp
      rw [hnil]
      rfl
    · rw [if_neg hemp]

lemma processConfigMaps_dryRun (env : ReconcilerEnv) (rs : ReplicaSet)
    (h : env.config.dryRun = true) :
    ∀ (names : List String) (store : CMStore),
      (processConfigMaps env rs names store).1 = store := by
  intro names
  induction names with
  | nil => intro store; rfl
  | cons n rest ih =>
    intro store
    show (processConfigMaps env rs (n :: rest) store).1 = store
    unfold processConfigMaps
    cases hv : store n with
    | notFound =>
      rw [processConfigMap_notFound env rs n store hv]
      exact ih store
    | fetchFailure =>
      rw [processConfigMap_fetchFailure env rs n store hv]
    | found cm =>
      rw [processConfigMap_found env rs n store cm hv]
      by_cases hp : isOwnerReferencePresent cm rs
      · rw [if_pos hp]
        exact ih store
      · rw [if_neg hp, if_pos h]
        exact ih store

/-- C5: with dry-run enabled, Reconcile never changes any ConfigMap: the
resulting store equals the initial store for every fetch outcome,
namespace and initial store. -/
theorem dryRun_invariance (env : ReconcilerEnv) (rsFetch : FetchResult ReplicaSet)
    (store : CMStore) (ns : String) (h : env.config.dryRun = true) :
    (reconcile env rsFetch store ns).1 = store := by
  cases hns : shouldProcessNamespace env.matcher env.config.namespaceRegex ns with
  | false => rw [reconcile_notProcessed env rsFetch store ns hns]
  | true =>
    cases rsFetch with
    | notFound => rw [reconcile_rsNotFound]
    | fetchFailure => rw [reconcile_rsFetchFailure env store ns hns]
    | found rs =>
      rw [reconcile_found env store ns rs hns]
      by_cases hlt : rs.creationTimestamp < env.startTime
      · rw [if_pos hlt]
      · rw [if_neg hlt]
        exact processConfigMaps_dryRun env rs h _ store

/-- C5 witness: a dry-run reconciliation of a newly created ReplicaSet
over a store holding the referenced ConfigMap leaves the store
unchanged. -/
theorem dryRun_invariance_witness :
    envDry.config.dryRun = true ∧
    (reconcile envDry (.found rsNew) storeBase "default").1 = storeBase :=
  ⟨rfl, dryRun_invariance envDry (.found rsNew) storeBase "default" rfl⟩

lemma volStep_eq_dedup (vmName : String) (st : List String × List String) (v : Volume) :
    volStep vmName st v = (volCMNames vmName v).foldl dedupStep st := by
  unfold volStep volCMNames dedupStep
  by_cases h : (v.name == vmName) = true
  · rw [if_pos h, if_pos h]
    cases hc : v.configMap with
    | none => rfl
    | some cmName => rfl
  · rw [if_neg h, if_neg h]
    rfl

lemma foldl_eq_foldl_dedupStep {α : Type}
    (f : List String × List String → α → List String × List String)
    (g : α → List String)
    (hf : ∀ st x, f st x = (g x).foldl dedupStep st) :
    ∀ (l : List α) (st : List String × List String),
      l.foldl f st = (l.flatMap g).foldl dedupStep st := by
  intro l
  induction l with
  | nil => intro st; rfl
  | cons x xs ih =>
    intro st
    show xs.foldl f (f st x) = ((x :: xs).flatMap g).foldl dedupStep st
    rw [hf st x, ih, List.flatMap_cons, List.foldl_append]

lemma mountStep_eq (volumes : List Volume) (st : List String × List String)
    (vm : VolumeMount) :
    mountStep volumes st vm = (mountCMNames volumes vm).foldl dedupStep st :=
  foldl_eq_foldl_dedupStep (volStep vm.name) (volCMNames vm.name)
    (volStep_eq_dedup vm.name) volumes st

lemma containerStep_eq (volumes : List Volume) (st : List String × List String)
    (c : Container) :
    containerStep volumes st c = (containerCMNames volumes c).foldl dedupStep st :=
  foldl_eq_foldl_dedupStep (mountStep volumes) (mountCMNames volumes)
    (mountStep_eq volumes) c.volumeMounts st

lemma extract_eq_foldl_dedup (rs : ReplicaSet) :
    extractConfigMapVolumes rs = ((discoveryOrder rs).foldl dedupStep ([], [])).1 := by
  show (List.foldl (containerStep rs.template.volumes)
      (List.foldl (containerStep rs.template.volumes) ([], []) rs.template.containers)
      rs.template.initContainers).1 =
    ((discoveryOrder rs).foldl dedupStep ([], [])).1
  unfold discoveryOrder
  rw [foldl_eq_foldl_dedupStep (containerStep rs.template.volumes)
        (containerCMNames rs.template.volumes) (containerStep_eq rs.template.volumes),
      foldl_eq_foldl_dedupStep (containerStep rs.template.volumes)
        (containerCMNames rs.template.volumes) (containerStep_eq rs.template.volumes),
      List.flatMap_append, List.foldl_append]

lemma firstSeenDedup_nil : firstSeenDedup [] = [] := by
  rw [firstSeenDedup.eq_def]

lemma firstSeenDedup_cons (n : String) (rest : List String) :
    firstSeenDedup (n :: rest) =
      n :: firstSeenDedup (rest.filter (fun x => x ≠ n)) := by
  rw [firstSeenDedup.eq_def]

lemma dedupStep_inv (st : List String × List String) (n : String)
    (h : DedupInv st) : DedupInv (dedupStep st n) := by
  unfold dedupStep
  by_cases hn : n ∈ st.2
  · rw [if_pos hn]
    exact h
  · rw [if_neg hn]
    have hn1 : n ∉ st.1 := fun hmem => hn ((h.2 n).mpr hmem)
    constructor
    · rw [List.nodup_append]
      exact ⟨h.1, List.nodup_singleton n, fun x hx hx' => hn1 (by
        rw [List.mem_singleton] at hx'
        rw [hx'] at hx
        exact hx)⟩
    · intro x
      rw [List.mem_cons, List.mem_append, List.mem_singleton, h.2 x, or_comm]

lemma foldl_dedupStep_spec :
    ∀ (l : List String) (st : List String × List String), DedupInv st →
      (l.foldl dedupStep st).1 =
        st.1 ++ firstSeenDedup (l.filter (fun x => x ∉ st.1)) := by
  intro l
  induction l with
  | nil =>
    intro st _
    simp [firstSeenDedup]
  | cons n rest ih =>
    intro st hinv
    by_cases hn : n ∈ st.2
    · have hn1 : n ∈ st.1 := (hinv.2 n).mp hn
      have hstep : dedupStep st n = st := by
        unfold dedupStep
        rw [if_pos hn]
      show (rest.foldl dedupStep (dedupStep st n)).1 = _
      rw [hstep, ih st hinv]
      have hfl : (n :: rest).filter (fun x => x ∉ st.1) =
          rest.filter (fun x => x ∉ st.1) := by
        rw [List.filter_cons]
        simp [hn1]
      rw [hfl]
    · have hn1 : n ∉ st.1 := fun hmem => hn ((hinv.2 n).mpr hmem)
      have hstep : dedupStep st n = (st.1 ++ [n], n :: st.2) := by
        unfold dedupStep
        rw [if_neg hn]
      have hinv' : DedupInv (st.1 ++ [n], n :: st.2) := by
        rw [← hstep]
        exact dedupStep_inv st n hinv
      show (rest.foldl dedupStep (dedupStep st n)).1 = _
      rw [hstep, ih _ hinv']
      have hfl : (n :: rest).filter (fun x => x ∉ st.1) =
          n :: rest.filter (fun x => x ∉ st.1) := by
        rw [List.filter_cons]
        simp [hn1]
      rw [hfl, firstSeenDedup_cons]
      show st.1 ++ [n] ++ firstSeenDedup (rest.filter fun x => x ∉ st.1 ++ [n]) =
        st.1 ++ (n :: firstSeenDedup ((rest.filter fun x => x ∉ st.1).filter fun x => x ≠ n))
      rw [List.filter_filter]
      have hcong : (rest.filter fun x => x ∉ st.1 ++ [n]) =
          (rest.filter fun x => decide (x ≠ n) && decide (x ∉ st.1)) := by
        apply List.filter_congr
        intro x _
        simp [List.mem_append, not_or, and_comm]
      rw [hcong, List.append_assoc, List.singleton_append]

lemma mem_firstSeenDedup : ∀ (l : List String) (x : String),
    x ∈ firstSeenDedup l ↔ x ∈ l := by
  intro l
  induction l using firstSeenDedup.induct with
  | case1 =>
    intro x
    rw [firstSeenDedup_nil]
  | case2 n rest ih =>
    intro x
    rw [firstSeenDedup_cons, List.mem_cons, List.mem_cons, ih x]
    constructor
    · rintro (rfl | hx)
      · exact Or.inl rfl
      · exact Or.inr (List.mem_of_mem_filter hx)
    · rintro (rfl | hx)
      · exact Or.inl rfl
      · by_cases hxn : x = n
        · exact Or.inl hxn
        · refine Or.inr (List.mem_filter.mpr ⟨hx, ?_⟩)
          simp [hxn]

lemma nodup_firstSeenDedup : ∀ l : List String, (firstSeenDedup l).Nodup := by
  intro l
  induction l using firstSeenDedup.induct with
  | case1 =>
    rw [firstSeenDedup_nil]
    exact List.nodup_nil
  | case2 n rest ih =>
    rw [firstSeenDedup_cons, List.nodup_cons]
    refine ⟨fun hmem => ?_, ih⟩
    rw [mem_firstSeenDedup] at hmem
    have := List.of_mem_filter hmem
    simp at this

lemma extract_eq_firstSeenDedup (rs : ReplicaSet) :
    extractConfigMapVolumes rs = firstSeenDedup (discoveryOrder rs) := by
  rw [extract_eq_foldl_dedup,
      foldl_dedupStep_spec (discoveryOrder rs) ([], []) ⟨List.nodup_nil, by simp⟩]
  simp

lemma extract_nodup (rs : ReplicaSet) : (extractConfigMapVolumes rs).Nodup := by
  rw [extract_eq_firstSeenDedup]
  exact nodup_firstSeenDedup _

lemma mem_volCMNames (vmName : String) (v : Volume) (x : String) :
    x ∈ volCMNames vmName v ↔ v.name = vmName ∧ v.configMap = some x := by
  unfold volCMNames
  by_cases h : (v.name == vmName) = true
  · rw [if_pos h]
    have hname : v.name = vmName := by
      exact eq_of_beq h
    cases hc : v.configMap with
    | none => simp [hname, hc]
    | some c => simp [hname, hc, eq_comm]
  · rw [if_neg h]
    have hname : ¬ v.name = vmName := fun he => h (by rw [he]; exact beq_self_eq_true _)
    simp [hname]

lemma mem_discoveryOrder (rs : ReplicaSet) (x : String) :
    x ∈ discoveryOrder rs ↔
      ∃ c ∈ rs.template.containers ++ rs.template.initContainers,
        ∃ vm ∈ c.volumeMounts,
          ∃ v ∈ rs.template.volumes, v.name = vm.name ∧ v.configMap = some x := by
  unfold discoveryOrder containerCMNames mountCMNames
  simp only [List.mem_flatMap, List.mem_append, mem_volCMNames]

/-- C2: the Reference Extractor returns the referenced-and-mounted
ConfigMap names in first-discovery order (primary containers, then init
containers, each container's mounts in order) with first-seen
deduplication; the result has no duplicates; and a name appears iff
some ConfigMap-backed volume carrying it is mounted by some primary or
init container — an unmounted volume never contributes. -/
theorem referenceExtractor_spec (rs : ReplicaSet) :
    extractConfigMapVolumes rs = firstSeenDedup (discoveryOrder rs) ∧
    (extractConfigMapVolumes rs).Nodup ∧
    ∀ n, n ∈ extractConfigMapVolumes rs ↔
      ∃ v ∈ rs.template.volumes, v.configMap = some n ∧
        ∃ c ∈ rs.template.containers ++ rs.template.initContainers,
          ∃ vm ∈ c.volumeMounts, vm.name = v.name := by
  refine ⟨extract_eq_firstSeenDedup rs, extract_nodup rs, fun n => ?_⟩
  rw [extract_eq_firstSeenDedup, mem_firstSeenDedup, mem_discoveryOrder]
  constructor
  · rintro ⟨c, hc, vm, hvm, v, hv, hname, hcm⟩
    exact ⟨v, hv, hcm, c, hc, vm, hvm, hname.symm⟩
  · rintro ⟨v, hv, hcm, c, hc, vm, hvm, hname⟩
    exact ⟨c, hc, vm, hvm, v, hv, hname.symm, hcm⟩

lemma isOwnerReferencePresent_setOwnerReference (rs : ReplicaSet) (cm : ConfigMap) :
    isOwnerReferencePresent (setOwnerReference rs cm) rs = true := by
  unfold isOwnerReferencePresent setOwnerReference
  simp [List.any_append]

lemma processConfigMap_key_only (env : ReconcilerEnv) (rs : ReplicaSet) (n : String)
    (store store' : CMStore) (h : processConfigMap env rs n store = .ok store') :
    ∀ k, k ≠ n → store' k = store k := by
  intro k hk
  cases hv : store n with
  | notFound =>
    rw [processConfigMap_notFound env rs n store hv] at h
    cases h
    rfl
  | fetchFailure =>
    rw [processConfigMap_fetchFailure env rs n store hv] at h
    cases h
  | found cm =>
    rw [processConfigMap_found env rs n store cm hv] at h
    by_cases hp : isOwnerReferencePresent cm rs = true
    · rw [if_pos hp] at h
      cases h
      rfl
    · rw [if_neg hp] at h
      by_cases hd : env.config.dryRun = true
      · rw [if_pos hd] at h
        cases h
        rfl
      · rw [if_neg hd] at h
        by_cases hu : env.updateOk n = true
        · rw [if_pos hu] at h
          cases h
          show (if k = n then FetchResult.found (setOwnerReference rs cm) else store k)
              = store k
          rw [if_neg hk]
        · rw [if_neg hu] at h
          cases h

lemma processConfigMaps_key_locality (env : ReconcilerEnv) (rs : ReplicaSet) :
    ∀ (names : List String) (store : CMStore) (k : String), k ∉ names →
      (processConfigMaps env rs names store).1 k = store k := by
  intro names
  induction names with
  | nil => intro store k _; rfl
  | cons n rest ih =>
    intro store k hk
    have hkn : k ≠ n := fun he => hk (he ▸ List.mem_cons_self n rest)
    have hkrest : k ∉ rest := fun hmem => hk (List.mem_cons_of_mem n hmem)
    show (processConfigMaps env rs (n :: rest) store).1 k = store k
    unfold processConfigMaps
    cases h : processConfigMap env rs n store with
    | error e => rfl
    | ok store' =>
      rw [ih store' k hkrest]
      exact processConfigMap_key_only env rs n store store' h k hkn

lemma processConfigMap_of_skip (env : ReconcilerEnv) (rs : ReplicaSet) (n : String)
    (store : CMStore) (h : SkipAt env rs (store n)) :
    processConfigMap env rs n store = .ok store := by
  rcases h with hv | ⟨cm, hv, hcase⟩
  · exact processConfigMap_notFound env rs n store hv
  · rw [processConfigMap_found env rs n store cm hv]
    rcases hcase with hp | hd
    · rw [if_pos hp]
    · by_cases hp : isOwnerReferencePresent cm rs = true
      · rw [if_pos hp]
      · rw [if_neg hp, if_pos hd]

lemma skip_of_processConfigMap_ok (env : ReconcilerEnv) (rs : ReplicaSet) (n : String)
    (store store' : CMStore) (h : processConfigMap env rs n store = .ok store') :
    SkipAt env rs (store' n) := by
  cases hv : store n with
  | notFound =>
    rw [processConfigMap_notFound env rs n store hv] at h
    cases h
    exact Or.inl hv
  | fetchFailure =>
    rw [processConfigMap_fetchFailure env rs n store hv] at h
    cases h
  | found cm =>
    rw [processConfigMap_found env rs n store cm hv] at h
    by_cases hp : isOwnerReferencePresent cm rs = true
    · rw [if_pos hp] at h
      cases h
      exact Or.inr ⟨cm, hv, Or.inl hp⟩
    · rw [if_neg hp] at h
      by_cases hd : env.config.dryRun = true
      · rw [if_pos hd] at h
        cases h
        exact Or.inr ⟨cm, hv, Or.inr hd⟩
      · rw [if_neg hd] at h
        by_cases hu : env.updateOk n = true
        · rw [if_pos hu] at h
          cases h
          refine Or.inr ⟨setOwnerReference rs cm, ?_, Or.inl ?_⟩
          · show (if n = n then FetchResult.found (setOwnerReference rs cm) else store n)
                = FetchResult.found (setOwnerReference rs cm)
            rw [if_pos rfl]
          · exact isOwnerReferencePresent_setOwnerReference rs cm
        · rw [if_neg hu] at h
          cases h

lemma processConfigMaps_idem (env : ReconcilerEnv) (rs : ReplicaSet) :
    ∀ (names : List String) (store : CMStore), names.Nodup →
      processConfigMaps env rs names ((processConfigMaps env rs names store).1) =
        processConfigMaps env rs names store := by
  intro names
  induction names with
  | nil => intro store _; rfl
  | cons n rest ih =>
    intro store hnd
    have hn : n ∉ rest := (List.nodup_cons.mp hnd).1
    have hrest : rest.Nodup := (List.nodup_cons.mp hnd).2
    cases h : processConfigMap env rs n store with
    | error e =>
      have h1 : processConfigMaps env rs (n :: rest) store = (store, some e) := by
        rw [processConfigMaps_cons, h]
      rw [h1]
      show processConfigMaps env rs (n :: rest) store = (store, some e)
      exact h1
    | ok store' =>
      have h1 : processConfigMaps env rs (n :: rest) store =
          processConfigMaps env rs rest store' := by
        rw [processConfigMaps_cons, h]
      rw [h1]
      have hkey : (processConfigMaps env rs rest store').1 n = store' n :=
        processConfigMaps_key_locality env rs rest store' n hn
      have hskip : SkipAt env rs ((processConfigMaps env rs rest store').1 n) := by
        rw [hkey]
        exact skip_of_processConfigMap_ok env rs n store store' h
      have h2 : processConfigMap env rs n ((processConfigMaps env rs rest store').1)
          = .ok ((processConfigMaps env rs rest store').1) :=
        processConfigMap_of_skip env rs n _ hskip
      have h3 : processConfigMaps env rs (n :: rest)
            ((processConfigMaps env rs rest store').1) =
          processConfigMaps env rs rest ((processConfigMaps env rs rest store').1) := by
        rw [processConfigMaps_cons, h2]
      rw [h3]
      exact ih store' hrest

/-- C3: Reconcile is idempotent — with no intervening state change, a
second run on the store produced by the first returns that store (and
the same outcome) unchanged, because an already-present
(kind, name, uid) owner reference makes every per-ConfigMap step skip
its write. -/
theorem reconcile_idempotent (env : ReconcilerEnv) (rsFetch : FetchResult ReplicaSet)
    (store : CMStore) (ns : String) :
    reconcile env rsFetch ((reconcile env rsFetch store ns).1) ns =
      reconcile env rsFetch store ns := by
  cases hns : shouldProcessNamespace env.matcher env.config.namespaceRegex ns with
  | false =>
    rw [reconcile_notProcessed env rsFetch store ns hns]
    exact reconcile_notProcessed env rsFetch store ns hns
  | true =>
    cases rsFetch with
    | notFound =>
      rw [reconcile_rsNotFound env store ns]
      exact reconcile_rsNotFound env store ns
    | fetchFailure =>
      rw [reconcile_rsFetchFailure env store ns hns]
      exact reconcile_rsFetchFailure env store ns hns
    | found rs =>
      rw [reconcile_found env store ns rs hns]
      by_cases hlt : rs.creationTimestamp < env.startTime
      · rw [if_pos hlt]
        show reconcile env (.found rs) store ns = (store, none)
        rw [reconcile_found env store ns rs hns, if_pos hlt]
      · rw [if_neg hlt]
        rw [reconcile_found env ((processConfigMaps env rs (extractConfigMapVolumes rs) store).1)
              ns rs hns, if_neg hlt]
        exact processConfigMaps_idem env rs (extractConfigMapVolumes rs) store
          (extract_nodup rs)

/-- C1 (amended): the startup watermark guard in Reconcile treats the
workload as new iff its creation time is NOT strictly before the start
time: creation strictly before start is a no-op with no error, while
creation at or after start proceeds to the per-ConfigMap processing —
in particular, creation time equal to the start time IS processed. -/
theorem startupWatermark_guard (env : ReconcilerEnv) (rs : ReplicaSet)
    (store : CMStore) (ns : String)
    (hns : shouldProcessNamespace env.matcher env.config.namespaceRegex ns = true) :
    (rs.creationTimestamp < env.startTime →
      reconcile env (.found rs) store ns = (store, none)) ∧
    (env.startTime ≤ rs.creationTimestamp →
      reconcile env (.found rs) store ns =
        processConfigMaps env rs (extractConfigMapVolumes rs) store) := by
  constructor
  · intro hlt
    rw [reconcile_found env store ns rs hns, if_pos hlt]
  · intro hle
    rw [reconcile_found env store ns rs hns, if_neg (not_lt.mpr hle)]

/-- C1 witness: at creation time equal to the start time the guard lets
the reconciliation proceed into ConfigMap processing. -/
theorem startupWatermark_guard_witness :
    envBase.startTime ≤ rsAtStart.creationTimestamp ∧
    reconcile envBase (.found rsAtStart) storeBase "default" =
      processConfigMaps envBase rsAtStart (extractConfigMapVolumes rsAtStart) storeBase :=
  ⟨by decide,
   (startupWatermark_guard envBase rsAtStart storeBase "default" (by decide)).2 (by decide)⟩

/-- C1 counterexample: for a workload whose creation time equals the
start time the claim predicts a no-op, but Reconcile (which skips only
when the creation time is strictly before the start time) processes the
workload and mutates the referenced ConfigMap. -/
theorem startupWatermark_guard_counterexample :
    rsAtStart.creationTimestamp = envBase.startTime ∧
    (reconcile envBase (.found rsAtStart) storeBase "default").1 "app-config" ≠
      storeBase "app-config" := by
  constructor
  · rfl
  · decide

/-- C4: not-found is benign and everything else propagates: a not-found
workload fetch yields success with no mutation; a failing workload
fetch propagates as the overall failure; a not-found ConfigMap is
skipped and processing continues with the remaining names; a failing
ConfigMap fetch aborts with that error and no further mutation; a
failing persist aborts with that error and no further mutation. -/
theorem errorPropagation_spec (env : ReconcilerEnv) (rs : ReplicaSet) (store : CMStore)
    (ns n : String) (rest : List String) (cm : ConfigMap) :
    (reconcile env .notFound store ns = (store, none)) ∧
    (shouldProcessNamespace env.matcher env.config.namespaceRegex ns = true →
      reconcile env .fetchFailure store ns = (store, some .getReplicaSetFailed)) ∧
    (store n = .notFound →
      processConfigMaps env rs (n :: rest) store = processConfigMaps env rs rest store) ∧
    (store n = .fetchFailure →
      processConfigMaps env rs (n :: rest) store =
        (store, some (.getConfigMapFailed n))) ∧
    (store n = .found cm → isOwnerReferencePresent cm rs = false →
      env.config.dryRun = false → env.updateOk n = false →
      processConfigMaps env rs (n :: rest) store =
        (store, some (.updateConfigMapFailed n))) := by
  refine ⟨reconcile_rsNotFound env store ns,
    fun hns => reconcile_rsFetchFailure env store ns hns, ?_, ?_, ?_⟩
  · intro hv
    rw [processConfigMaps_cons, processConfigMap_notFound env rs n store hv]
  · intro hv
    rw [processConfigMaps_cons, processConfigMap_fetchFailure env rs n store hv]
  · intro hv hp hd hu
    rw [processConfigMaps_cons, processConfigMap_found env rs n store cm hv,
        if_neg (by rw [hp]; exact Bool.false_ne_true),
        if_neg (by rw [hd]; exact Bool.false_ne_true),
        if_neg (by rw [hu]; exact Bool.false_ne_true)]

/-- C4 witness: over a store with a healthy "app-config", a transiently
failing "broken" and everything else absent — a deleted workload is a
benign no-op, a failing workload fetch propagates, a missing ConfigMap
is skipped, a failing ConfigMap fetch aborts, and a failing persist
aborts with the corresponding error. -/
theorem errorPropagation_spec_witness :
    reconcile envBase .notFound storeMulti "default" = (storeMulti, none) ∧
    reconcile envBase .fetchFailure storeMulti "default" =
      (storeMulti, some .getReplicaSetFailed) ∧
    processConfigMaps envBase rsNew ["missing", "app-config"] storeMulti =
      processConfigMaps envBase rsNew ["app-config"] storeMulti ∧
    processConfigMaps envBase rsNew ["broken", "app-config"] storeMulti =
      (storeMulti, some (.getConfigMapFailed "broken")) ∧
    processConfigMaps envNoUpdate rsNew ["app-config", "other"] storeMulti =
      (storeMulti, some (.updateConfigMapFailed "app-config")) :=
  ⟨(errorPropagation_spec envBase rsNew storeMulti "default" "x" [] ⟨[]⟩).1,
   (errorPropagation_spec envBase rsNew storeMulti "default" "x" [] ⟨[]⟩).2.1
     (by decide),
   (errorPropagation_spec envBase rsNew storeMulti "default" "missing"
     ["app-config"] ⟨[]⟩).2.2.1 (by decide),
   (errorPropagation_spec envBase rsNew storeMulti "default" "broken"
     ["app-config"] ⟨[]⟩).2.2.2.1 (by decide),
   (errorPropagation_spec envNoUpdate rsNew storeMulti "default" "app-config"
     ["other"] { ownerReferences := [] }).2.2.2.2 (by decide) (by decide) rfl rfl⟩

/-- C9 (amended): configuration combines CLI flags with environment
overrides: NAMESPACE_REGEX, when non-empty, replaces the flag-derived
pattern list (comma-separated, entries trimmed); DRY_RUN=true,
DEBUG=true and TRACE=true force the corresponding settings to true;
TRACE=true also forces debug to true — but the --trace flag alone does
not force debug. -/
theorem finalizeConfig_spec (flagRegex : String) (fDry fDbg fTr : Bool)
    (getEnv : String → String) :
    ((finalizeConfig flagRegex fDry fDbg fTr getEnv).dryRun
      = (fDry || getEnv "DRY_RUN" == "true")) ∧
    ((finalizeConfig flagRegex fDry fDbg fTr getEnv).debug
      = (fDbg || getEnv "DEBUG" == "true" || getEnv "TRACE" == "true")) ∧
    ((finalizeConfig flagRegex fDry fDbg fTr getEnv).trace
      = (fTr || getEnv "TRACE" == "true")) ∧
    (getEnv "NAMESPACE_REGEX" ≠ "" →
      (finalizeConfig flagRegex fDry fDbg fTr getEnv).namespaceRegex
        = splitTrim (getEnv "NAMESPACE_REGEX")) ∧
    (getEnv "NAMESPACE_REGEX" = "" → flagRegex ≠ "" →
      (finalizeConfig flagRegex fDry fDbg fTr getEnv).namespaceRegex
        = splitTrim flagRegex) ∧
    (getEnv "NAMESPACE_REGEX" = "" → flagRegex = "" →
      (finalizeConfig flagRegex fDry fDbg fTr getEnv).namespaceRegex = []) := by
  refine ⟨?_, ?_, ?_, ?_, ?_, ?_⟩
  · show (if getEnv "DRY_RUN" == "true" then true else fDry) = _
    cases hdr : getEnv "DRY_RUN" == "true" <;> simp
  · show (if getEnv "TRACE" == "true" then true
          else if getEnv "DEBUG" == "true" then true else fDbg) = _
    cases ht : getEnv "TRACE" == "true" <;>
      cases hd : getEnv "DEBUG" == "true" <;> simp
  · show (if getEnv "TRACE" == "true" then true else fTr) = _
    cases ht : getEnv "TRACE" == "true" <;> simp
  · intro h
    show (if getEnv "NAMESPACE_REGEX" ≠ "" then splitTrim (getEnv "NAMESPACE_REGEX")
          else if flagRegex ≠ "" then splitTrim flagRegex else []) = _
    rw [if_pos h]
  · intro h hf
    show (if getEnv "NAMESPACE_REGEX" ≠ "" then splitTrim (getEnv "NAMESPACE_REGEX")
          else if flagRegex ≠ "" then splitTrim flagRegex else []) = _
    rw [if_neg (not_not_intro h), if_pos hf]
  · intro h hf
    show (if getEnv "NAMESPACE_REGEX" ≠ "" then splitTrim (getEnv "NAMESPACE_REGEX")
          else if flagRegex ≠ "" then splitTrim flagRegex else []) = _
    rw [if_neg (not_not_intro h), if_neg (not_not_intro hf)]

/-- C9 witness: with NAMESPACE_REGEX and TRACE set in the environment,
the pattern list comes from the environment (split on commas, trimmed)
and debug is forced on even though both debug-related flags are off. -/
theorem finalizeConfig_spec_witness :
    (getEnvSample "NAMESPACE_REGEX" ≠ "") ∧
    (finalizeConfig "^prod-.*" false false false getEnvSample).namespaceRegex
      = splitTrim (getEnvSample "NAMESPACE_REGEX") ∧
    (finalizeConfig "^prod-.*" false false false getEnvSample).debug = true :=
  ⟨by decide,
   (finalizeConfig_spec "^prod-.*" false false false getEnvSample).2.2.2.1
     (by decide),
   by
     rw [(finalizeConfig_spec "^prod-.*" false false false getEnvSample).2.1]
     decide⟩

/-- C9 counterexample: with an empty environment, the --trace flag alone
yields trace set but debug NOT set, refuting "setting trace forces
debug to true" read as covering the flag. -/
theorem finalizeConfig_counterexample :
    (finalizeConfig "" false false true (fun _ => "")).trace = true ∧
    (finalizeConfig "" false false true (fun _ => "")).debug = false := by
  constructor
  · rfl
  · rfl

end ConfigMapRsOperator
